import Mathlib

/-!
# Findreve-vue: the cache store and the request gateway

A shallow embedding of `src/services/storage_service.js` and
`src/services/api_service.js`.

* JSON values are the inductive type `JVal`; numbers are integers (timestamps
  and durations are milliseconds).  `undefined` is not a JSON value: it only
  arises as the result of reading a property that is not there, so a JavaScript
  value is `Val = Option JVal` with `none` for `undefined`.
* The text kept in `localStorage` under the cache key is abstracted to what
  `JSON.parse` makes of it (`Raw`): the empty string, a text that does not
  parse, or the text of a JSON value.
* Effects are explicit: a computation is a function from the `World` (clock,
  `localStorage`, its fault schedule, the server, the router) to an outcome
  (a value or a thrown exception) and the world after it.
* A plain object is an association list of its own properties, with
  `Object.prototype` behind it: `o[key]` finds an own property first and then
  the members every object inherits (`constructor`, `toString`, `__proto__`,
  ...), and `o['__proto__'] = v` on an object without such an own property runs
  the inherited setter, which creates no property.  What the engine does when a
  truthy value that is not a plain object (an array, a string, a number,
  `true`) is indexed, assigned to or enumerated is left to the `Host`, about
  which nothing is assumed.
-/

set_option autoImplicit false

namespace Findreve

/-! ## JavaScript values -/

/-- JSON values. -/
inductive JVal where
  | null
  | bool (b : Bool)
  | num (n : Int)
  | str (s : String)
  | arr (items : List JVal)
  | obj (fields : List (String × JVal))

/-- A JavaScript value: `none` is `undefined`. -/
abbrev Val := Option JVal

/-- Truthiness (`ToBoolean`): `undefined`, `null`, `false`, `0` and `""` are falsy. -/
def truthy : Val → Bool
  | none => false
  | some .null => false
  | some (.bool b) => b
  | some (.num n) => n != 0
  | some (.str s) => s != ""
  | some (.arr _) => true
  | some (.obj _) => true

/-- The expression `a || b` where `b` is a JSON value. -/
def orElse (a : Val) (b : JVal) : JVal :=
  match a with
  | some v => if truthy (some v) then v else b
  | none => b

/-- Exceptions. -/
inductive JsError where
  /-- An exception `new Error(message)`: the message is the string form of the value. -/
  | error (message : JVal)
  /-- A property read on `null` or `undefined`, an assignment to a primitive. -/
  | typeError
  /-- Thrown by `JSON.parse` or `response.json()` on a text that is not JSON. -/
  | syntaxError
  /-- An exception thrown by `localStorage` (quota exceeded, storage unavailable). -/
  | storageFault
  /-- Rejection of `fetch` (DNS, timeout, connection reset). -/
  | networkFault
  /-- Any other exception the engine raises on a value that is not a plain object. -/
  | hostError (code : Nat)

/-- The text stored under the cache key, as `JSON.parse` sees it. -/
inductive Raw where
  /-- The empty string, which is falsy. -/
  | empty
  /-- A non-empty text that `JSON.parse` rejects. -/
  | malformed
  /-- The text `JSON.stringify v`. -/
  | json (v : JVal)

/-- What a property read `c[key]` yields. -/
inductive Slot where
  /-- The value of an own property, or `undefined` when there is no such property. -/
  | value (v : Val)
  /-- The member `name` inherited from a prototype: a built-in function, or for
  `__proto__` the prototype object itself. -/
  | inherited (name : String)

/-- What the engine does on receivers that are not plain objects, and URL escaping. -/
structure Host where
  /-- The read `c[key]` on a truthy value that is not a plain object. -/
  exoticGet : JVal → String → Slot
  /-- The assignment `c[key] = v` on such a value: the value as `JSON.stringify` will see it, or an exception. -/
  exoticSet : JVal → String → JVal → Except JsError JVal
  /-- The statement `delete c[key]` on such a value. -/
  exoticDelete : JVal → String → Except JsError JVal
  /-- The call `Object.keys(c)` on such a value. -/
  exoticKeys : JVal → List String
  /-- The test `now - ts > ex` when `ts` or `ex` is a string, an array or an object, whose
  conversion to a number is the engine's (and may throw). -/
  coercedExpired : Int → Val → Val → Except JsError Bool
  /-- The function `encodeURIComponent`. -/
  encodeURIComponent : String → String

/-- An HTTP response. `body = none` is a body that `response.json()` cannot parse. -/
structure Response where
  status : Nat
  statusText : String
  body : Option JVal

/-- The getter `response.ok`: the status is in the range 200-299. -/
def Response.ok (r : Response) : Bool := decide (200 ≤ r.status) && decide (r.status ≤ 299)

/-- What `fetch` yields. -/
inductive FetchOutcome where
  | rejects
  | responds (r : Response)

/-- A location handed to `router.push`. -/
structure Push where
  path : String
  query : List (String × String)

/-- The environment the two services run in. -/
structure World where
  /-- The clock: what `Date.now()` returns. -/
  now : Int
  /-- The item `localStorage['findreve-items-cache']`. -/
  itemsCache : Option Raw
  /-- The item `localStorage['findreve-cache-version']`. -/
  cacheVersion : Option String
  /-- The item `localStorage['user-token']`: the value whose string form is stored. -/
  userToken : Option Val
  /-- Fault schedule of `localStorage`: each call consumes the head, `true` makes it throw. -/
  faults : List Bool
  /-- Storage keys handed to `localStorage.setItem`, oldest first. -/
  setItemLog : List String
  /-- The outcome of the n-th `fetch`. -/
  server : Nat → FetchOutcome
  /-- Method and URL of every `fetch` made so far, oldest first. -/
  fetchLog : List (String × String)
  /-- Number of `response.json()` calls made so far. -/
  bodyReads : Nat
  /-- The current location `router.currentRoute.value.fullPath`. -/
  fullPath : String
  /-- Locations handed to `router.push`, oldest first. -/
  pushes : List Push
  /-- The engine. -/
  host : Host

/-! ## Computations -/

/-- A computation: from the world to a value or an exception, and the world after. -/
def JS (α : Type) : Type := World → Except JsError α × World

namespace JS

/-- Return a value. -/
def ret {α : Type} (a : α) : JS α := fun w => (.ok a, w)

/-- Sequencing: an exception in the first part skips the second, effects are kept. -/
def andThen {α β : Type} (m : JS α) (f : α → JS β) : JS β := fun w =>
  match m w with
  | (.ok a, w1) => f a w1
  | (.error e, w1) => (.error e, w1)

/-- The statement `throw e`. -/
def raise {α : Type} (e : JsError) : JS α := fun w => (.error e, w)

/-- The statement `try { body } catch (e) { handler e }`. -/
def tryCatch {α : Type} (body : JS α) (handler : JsError → JS α) : JS α := fun w =>
  match body w with
  | (.ok a, w1) => (.ok a, w1)
  | (.error e, w1) => handler e w1

end JS

instance : Monad JS where
  pure := JS.ret
  bind := JS.andThen

/-! ## Built-ins -/

/-- The call `Date.now()`. -/
def dateNow : JS Int := fun w => (.ok w.now, w)

/-- One call into `localStorage`: consumes the head of the fault schedule. -/
def storageCall : JS Unit := fun w =>
  match w.faults with
  | [] => (.ok (), w)
  | false :: rest => (.ok (), { w with faults := rest })
  | true :: rest => (.error .storageFault, { w with faults := rest })

/-- The call `localStorage.getItem('findreve-items-cache')`. -/
def getItemItemsCache : JS (Option Raw) := do
  storageCall
  fun w => (.ok w.itemsCache, w)

/-- The call `localStorage.setItem('findreve-items-cache', text)`. -/
def setItemItemsCache (text : Raw) : JS Unit := do
  (fun w => (.ok (), { w with setItemLog := w.setItemLog ++ ["findreve-items-cache"] }))
  storageCall
  fun w => (.ok (), { w with itemsCache := some text })

/-- The call `localStorage.removeItem('findreve-items-cache')`. -/
def removeItemItemsCache : JS Unit := do
  storageCall
  fun w => (.ok (), { w with itemsCache := none })

/-- The call `localStorage.getItem('findreve-cache-version')`. -/
def getItemCacheVersion : JS (Option String) := do
  storageCall
  fun w => (.ok w.cacheVersion, w)

/-- The call `localStorage.setItem('findreve-cache-version', v)`. -/
def setItemCacheVersion (v : String) : JS Unit := do
  (fun w => (.ok (), { w with setItemLog := w.setItemLog ++ ["findreve-cache-version"] }))
  storageCall
  fun w => (.ok (), { w with cacheVersion := some v })

/-- The call `localStorage.getItem('user-token')`. -/
def getItemUserToken : JS (Option Val) := do
  storageCall
  fun w => (.ok w.userToken, w)

/-- The call `localStorage.setItem('user-token', v)`. -/
def setItemUserToken (v : Val) : JS Unit := do
  (fun w => (.ok (), { w with setItemLog := w.setItemLog ++ ["user-token"] }))
  storageCall
  fun w => (.ok (), { w with userToken := some v })

/-- The call `localStorage.removeItem('user-token')`. -/
def removeItemUserToken : JS Unit := do
  storageCall
  fun w => (.ok (), { w with userToken := none })

/-- The call `JSON.parse(text)` for a truthy text. -/
def jsonParse : Raw → JS JVal
  | .json v => pure v
  | .malformed => JS.raise .syntaxError
  | .empty => JS.raise .syntaxError

/-- The call `JSON.stringify(v)`. -/
def jsonStringify (v : JVal) : Raw := .json v

/-- The member access `v.name` for the fixed names the services read (`timestamp`,
`expiry`, `data`, `code`, `msg`, `detail`, `access_token`): none of them is a
property of a primitive or of an array, and on `null` or `undefined` the read throws. -/
def field (v : Val) (name : String) : JS Val :=
  match v with
  | none => JS.raise .typeError
  | some .null => JS.raise .typeError
  | some (.obj fields) => pure (fields.lookup name)
  | some _ => pure none

/-- Set `key` in a plain object: replace in place, or append. -/
def upsert (fields : List (String × JVal)) (key : String) (v : JVal) : List (String × JVal) :=
  match fields with
  | [] => [(key, v)]
  | (k, x) :: rest => if k = key then (k, v) :: rest else (k, x) :: upsert rest key v

/-- Remove `key` from a plain object. -/
def erase (fields : List (String × JVal)) (key : String) : List (String × JVal) :=
  fields.filter (fun p => p.1 != key)

/-- The names of the members a plain object inherits from `Object.prototype`. -/
def objectPrototypeMembers : List String :=
  ["constructor", "__defineGetter__", "__defineSetter__", "hasOwnProperty",
   "__lookupGetter__", "__lookupSetter__", "isPrototypeOf", "propertyIsEnumerable",
   "toString", "valueOf", "__proto__", "toLocaleString"]

/-- Truthiness of what a property read yields: a built-in function and the prototype object
are truthy. -/
def Slot.truthy : Slot → Bool
  | .value v => Findreve.truthy v
  | .inherited _ => true

/-- The member access `s.name` on what a property read yielded, for the names `timestamp`,
`expiry` and `data`: neither a built-in function nor `Object.prototype` has them. -/
def Slot.field (s : Slot) (name : String) : JS Val :=
  match s with
  | .value v => Findreve.field v name
  | .inherited _ => pure none

/-- The read `o[key]` on a plain object: an own property, else a member inherited from
`Object.prototype`, else `undefined`. -/
def plainGet (fields : List (String × JVal)) (key : String) : Slot :=
  match fields.lookup key with
  | some v => .value (some v)
  | none => if objectPrototypeMembers.contains key then .inherited key else .value none

/-- The own properties of a plain object after `o[key] = v`. Without an own property
`__proto__` the assignment `o['__proto__'] = v` runs the setter inherited from
`Object.prototype`, which changes the prototype at most; every other key names an own
property or a writable inherited one, and the assignment sets or creates an own property. -/
def plainSet (fields : List (String × JVal)) (key : String) (v : JVal) :
    List (String × JVal) :=
  if key = "__proto__" ∧ (fields.lookup key).isNone then fields else upsert fields key v

/-- The expression `c[key]`. -/
def getIndex (c : JVal) (key : String) : JS Slot := fun w =>
  match c with
  | .obj fields => (.ok (plainGet fields key), w)
  | other => (.ok (w.host.exoticGet other key), w)

/-- The statement `c[key] = v`; yields the container as `JSON.stringify` will see it. -/
def setIndex (c : JVal) (key : String) (v : JVal) : JS JVal := fun w =>
  match c with
  | .obj fields => (.ok (.obj (plainSet fields key v)), w)
  | other => (w.host.exoticSet other key v, w)

/-- The statement `delete c[key]`; yields the container after it. -/
def deleteIndex (c : JVal) (key : String) : JS JVal := fun w =>
  match c with
  | .obj fields => (.ok (.obj (erase fields key)), w)
  | other => (w.host.exoticDelete other key, w)

/-- The call `Object.keys(c)`. -/
def objectKeys (c : JVal) : JS (List String) := fun w =>
  match c with
  | .obj fields => (.ok (fields.map Prod.fst), w)
  | other => (.ok (w.host.exoticKeys other), w)

/-- The result of `ToNumber`, where the model determines it. -/
inductive Coerced where
  /-- The value `NaN`. -/
  | nan
  /-- An integer. -/
  | int (n : Int)
  /-- The conversion of a string, an array or an object, which is the engine's. -/
  | engine

/-- The conversion `ToNumber`: `undefined` is `NaN`, `null` is 0, `false` and `true` are
0 and 1. -/
def toNumber : Val → Coerced
  | none => .nan
  | some .null => .int 0
  | some (.bool b) => .int (if b then 1 else 0)
  | some (.num n) => .int n
  | some (.str _) => .engine
  | some (.arr _) => .engine
  | some (.obj _) => .engine

/-- The test `now - ts > ex`: a comparison with `NaN` is false. -/
def expired (now : Int) (ts ex : Val) : JS Bool := fun w =>
  match toNumber ts, toNumber ex with
  | .engine, _ => (w.host.coercedExpired now ts ex, w)
  | _, .engine => (w.host.coercedExpired now ts ex, w)
  | .int a, .int b => (.ok (decide (now - a > b)), w)
  | _, _ => (.ok false, w)

/-- The call `keys.forEach(step)` threading the captured variables through `acc`. -/
def forEach {σ : Type} (keys : List String) (acc : σ) (step : σ → String → JS σ) : JS σ :=
  match keys with
  | [] => pure acc
  | k :: rest => do
    let acc1 ← step acc k
    forEach rest acc1 step

/-! ## `storage_service.js` -/

/-- The constant `CURRENT_CACHE_VERSION`. -/
def CURRENT_CACHE_VERSION : String := "1.0"

/-- The constant `DEFAULT_CACHE_EXPIRY`: 24 hours in milliseconds. -/
def DEFAULT_CACHE_EXPIRY : Int := 24 * 60 * 60 * 1000

/-- The operand `getAllCachedItems() || {}`. -/
def orEmpty (v : JVal) : JVal := orElse (some v) (.obj [])

/-- The method `StorageService.getAllCachedItems`. -/
def getAllCachedItems : JS JVal :=
  JS.tryCatch
    (do
      let cachedData ← getItemItemsCache
      match cachedData with
      | none => pure (.obj [])
      | some .empty => pure (.obj [])
      | some text => jsonParse text)
    (fun _ => pure (.obj []))

/-- The method `StorageService.clearAllCache`. -/
def clearAllCache : JS Unit :=
  JS.tryCatch removeItemItemsCache (fun _ => pure ())

/-- The method `StorageService.initializeCache`. -/
def initializeCache : JS Unit :=
  JS.tryCatch
    (do
      let cachedVersion ← getItemCacheVersion
      if cachedVersion ≠ some CURRENT_CACHE_VERSION then do
        clearAllCache
        setItemCacheVersion CURRENT_CACHE_VERSION
      else
        pure ())
    (fun _ => clearAllCache)

/-- The object literal `{ data, timestamp, expiry }` as `JSON.stringify` writes it:
a `data` that is `undefined` is left out. -/
def cacheEntry (itemData : Val) (timestamp expiry : Int) : JVal :=
  .obj ((match itemData with
         | some d => [("data", d)]
         | none => []) ++ [("timestamp", .num timestamp), ("expiry", .num expiry)])

/-- The method `StorageService.saveItemToCache`; `expiryTime = none` is the omitted argument. -/
def saveItemToCache (key : String) (itemData : Val) (expiryTime : Option Int) : JS Unit :=
  JS.tryCatch
    (do
      let itemsCache := orEmpty (← getAllCachedItems)
      let now ← dateNow
      let itemsCache ← setIndex itemsCache key
        (cacheEntry itemData now (expiryTime.getD DEFAULT_CACHE_EXPIRY))
      setItemItemsCache (jsonStringify itemsCache))
    (fun _ => pure ())

/-- The method `StorageService.removeItemFromCache`. -/
def removeItemFromCache (key : String) : JS Unit :=
  JS.tryCatch
    (do
      let itemsCache := orEmpty (← getAllCachedItems)
      if (← getIndex itemsCache key).truthy then do
        let itemsCache ← deleteIndex itemsCache key
        setItemItemsCache (jsonStringify itemsCache)
      else
        pure ())
    (fun _ => pure ())

/-- The method `StorageService.getItemFromCache`. -/
def getItemFromCache (key : String) : JS Val :=
  JS.tryCatch
    (do
      let itemsCache := orEmpty (← getAllCachedItems)
      let cachedItem ← getIndex itemsCache key
      if !cachedItem.truthy then
        pure (some .null)
      else do
        let now ← dateNow
        let ts ← cachedItem.field "timestamp"
        let ex ← cachedItem.field "expiry"
        if (← expired now ts ex) then do
          removeItemFromCache key
          pure (some .null)
        else
          cachedItem.field "data")
    (fun _ => pure (some .null))

/-- The method `StorageService.getCacheTimestamp`. -/
def getCacheTimestamp (key : String) : JS Val :=
  JS.tryCatch
    (do
      let itemsCache := orEmpty (← getAllCachedItems)
      let cachedItem ← getIndex itemsCache key
      if cachedItem.truthy then do
        let ts ← cachedItem.field "timestamp"
        if truthy ts then pure ts else pure (some .null)
      else
        pure (some .null))
    (fun _ => pure (some .null))

/-- The callback of `cleanExpiredCache`, on the captured `(itemsCache, hasExpired)`. -/
def sweepStep (now : Int) (acc : JVal × Bool) (key : String) : JS (JVal × Bool) := do
  let item ← getIndex acc.1 key
  let ts ← item.field "timestamp"
  let ex ← item.field "expiry"
  if (← expired now ts ex) then do
    let itemsCache ← deleteIndex acc.1 key
    pure (itemsCache, true)
  else
    pure acc

/-- The method `StorageService.cleanExpiredCache`. -/
def cleanExpiredCache : JS Unit :=
  JS.tryCatch
    (do
      let now ← dateNow
      let itemsCache := orEmpty (← getAllCachedItems)
      let keys ← objectKeys itemsCache
      let swept ← forEach keys (itemsCache, false) (sweepStep now)
      if swept.2 then
        setItemItemsCache (jsonStringify swept.1)
      else
        pure ())
    (fun _ => pure ())

/-! ## `api_service.js` -/

/-- The call `fetch(url, { method, ... })`: the server decides the outcome. -/
def fetch (method url : String) : JS Response := fun w =>
  let w1 := { w with fetchLog := w.fetchLog ++ [(method, url)] }
  match w.server w.fetchLog.length with
  | .rejects => (.error .networkFault, w1)
  | .responds r => (.ok r, w1)

/-- The call `response.json()`. -/
def Response.json (r : Response) : JS JVal := fun w =>
  let w1 := { w with bodyReads := w.bodyReads + 1 }
  match r.body with
  | some v => (.ok v, w1)
  | none => (.error .syntaxError, w1)

/-- The read `router.currentRoute.value.fullPath`. -/
def currentFullPath : JS String := fun w => (.ok w.fullPath, w)

/-- The call `router.push(location)`. -/
def routerPush (location : Push) : JS Unit := fun w =>
  (.ok (), { w with pushes := w.pushes ++ [location] })

/-- The call `encodeURIComponent(s)`. -/
def encodeURIComponent (s : String) : JS String := fun w =>
  (.ok (w.host.encodeURIComponent s), w)

/-- The message of the error thrown when the credential has expired. -/
def AUTH_EXPIRED : JVal := .str "认证已过期，请重新登录"

/-- The method `ApiService.request`. The request headers (among them the bearer
credential read from `localStorage` before the `try` block) reach the server
only, whose answer is arbitrary. -/
def request (method url : String) : JS JVal := do
  let _token ← getItemUserToken
  JS.tryCatch
    (do
      let response ← fetch method url
      (if response.status = 401 then do
        removeItemUserToken
        let currentPath ← currentFullPath
        if currentPath ≠ "/login" then do
          routerPush { path := "/login", query := [("redirect", currentPath), ("expired", "true")] }
          JS.raise (.error AUTH_EXPIRED)
        else
          pure ()
      else
        pure ())
      if !response.ok then do
        let errorMessage ← JS.tryCatch
          (do
            let errorData ← response.json
            let msg ← field (some errorData) "msg"
            let detail ← field (some errorData) "detail"
            pure (orElse msg (orElse detail (.str ("请求失败: " ++ toString response.status)))))
          (fun _ => pure (.str ("请求失败: " ++ toString response.status ++ " " ++ response.statusText)))
        JS.raise (.error errorMessage)
      else
        response.json)
    (fun error => JS.raise error)

/-- The method `ApiService.get`. -/
def get (url : String) : JS JVal := request "GET" url

/-- The result of `login`: `{ success: true, data }` or `{ success: false, error }`,
where `error` is the message of the exception that was caught. -/
inductive LoginResult where
  | success (data : JVal)
  | failure (error : JsError)

/-- The method `ApiService.login`. -/
def login (_username _password : String) : JS LoginResult :=
  JS.tryCatch
    (do
      let response ← fetch "POST" "/api/token"
      if !response.ok then do
        let errorMessage ←
          (if response.status = 401 then
            pure (JVal.str "账号或密码错误")
          else
            JS.tryCatch
              (do
                let errorData ← response.json
                let detail ← field (some errorData) "detail"
                pure (orElse detail (.str "登录失败")))
              (fun _ => pure (JVal.str "登录失败")))
        JS.raise (.error errorMessage)
      else do
        let data ← response.json
        let accessToken ← field (some data) "access_token"
        setItemUserToken accessToken
        pure (.success data))
    (fun error => pure (.failure error))

/-- The test `v === 0`. -/
def strictEqZero : Val → Bool
  | some (.num n) => n == 0
  | _ => false

/-- The method `ApiService.getObject`; a `useCache` that is `false` skips the lookup. -/
def getObject (key : String) (useCache : Bool) : JS Val :=
  JS.tryCatch
    (do
      let cachedItem ← (if useCache then getItemFromCache key else pure none)
      if truthy cachedItem then
        pure cachedItem
      else do
        let data ← get ("/api/object/" ++ (← encodeURIComponent key))
        let code ← field (some data) "code"
        if strictEqZero code then do
          let payload ← field (some data) "data"
          saveItemToCache key payload none
          field (some data) "data"
        else do
          let msg ← field (some data) "msg"
          JS.raise (.error (orElse msg (.str "获取物品信息失败"))))
    (fun error => JS.raise error)


/-! ## Vocabulary of the statements -/

/-- The property `v.name` of a JSON value that is not `null`: `undefined` unless `v` is an
object that has it. -/
def member (v : JVal) (name : String) : Val :=
  match v with
  | .obj fields => fields.lookup name
  | _ => none

/-- The message chosen by the generic non-2xx handling of `request`:
`errorData.msg || errorData.detail || 请求失败: status`, or `请求失败: status statusText`
when the body cannot be parsed or is `null`. -/
def genericMessage (r : Response) : JVal :=
  match r.body with
  | none => .str ("请求失败: " ++ toString r.status ++ " " ++ r.statusText)
  | some .null => .str ("请求失败: " ++ toString r.status ++ " " ++ r.statusText)
  | some data =>
    orElse (member data "msg")
      (orElse (member data "detail") (.str ("请求失败: " ++ toString r.status)))

/-- The redirect to the login surface that carries the original location. -/
def loginRedirect (currentPath : String) : Push :=
  { path := "/login", query := [("redirect", currentPath), ("expired", "true")] }

/-- The world at a later reading of the clock. -/
def World.atTime (w : World) (t : Int) : World := { w with now := t }

/-- The world after a `localStorage.setItem('findreve-items-cache', text)` that did not fault. -/
def World.afterWrite (w : World) (text : Raw) : World :=
  { w with setItemLog := w.setItemLog ++ ["findreve-items-cache"], itemsCache := some text }

/-- The world after a `fetch` that was answered and one `response.json()`. -/
def World.afterResponse (w : World) (method url : String) : World :=
  { w with fetchLog := w.fetchLog ++ [(method, url)], bodyReads := w.bodyReads + 1 }

/-- The value `getAllCachedItems` computes from the stored text when the read does not fault. -/
def parsed : Option Raw → JVal
  | some (.json v) => v
  | _ => .obj []

/-- The cache mapping the methods work on: `getAllCachedItems() || {}`. -/
def World.mapping (w : World) : JVal := orEmpty (parsed w.itemsCache)

/-- Whether a value is a plain object. -/
def isPlainObject : JVal → Bool
  | .obj _ => true
  | _ => false

/-- The stored text is absent, empty, unparseable, or the text of a plain object or of a
falsy JSON value: the cache mapping is a plain object. -/
def World.plainStore (w : World) : Bool := isPlainObject w.mapping

/-- A well-formed cache entry: an object holding a numeric `timestamp` and `expiry`. -/
def wellFormedEntry (v : JVal) : Bool :=
  match v with
  | .obj fields =>
    (match fields.lookup "timestamp" with
     | some (.num _) => true
     | _ => false) &&
    (match fields.lookup "expiry" with
     | some (.num _) => true
     | _ => false)
  | _ => false

/-- The `timestamp` of a well-formed cache entry. -/
def timestampOf (v : JVal) : Int :=
  match v with
  | .obj fields =>
    (match fields.lookup "timestamp" with
     | some (.num a) => a
     | _ => 0)
  | _ => 0

/-- The `expiry` of a well-formed cache entry. -/
def expiryOf (v : JVal) : Int :=
  match v with
  | .obj fields =>
    (match fields.lookup "expiry" with
     | some (.num b) => b
     | _ => 0)
  | _ => 0

/-- An entry is unexpired at `now` when `now - timestamp ≤ expiry`. -/
def unexpired (now : Int) (v : JVal) : Bool := decide (now - timestampOf v ≤ expiryOf v)

/-! ## Sample data -/

/-- An engine on which every operation on a value that is not a plain object does nothing. -/
def sampleHost : Host :=
  { exoticGet := fun _ _ => .value none
    exoticSet := fun _ _ _ => .error .typeError
    exoticDelete := fun c _ => .ok c
    exoticKeys := fun _ => []
    coercedExpired := fun _ _ _ => .ok false
    encodeURIComponent := fun s => s }

/-- A fresh world at time 0: empty storage at the current cache version, no faults,
a server that is unreachable, the location `/admin`. -/
def sampleWorld : World :=
  { now := 0, itemsCache := none, cacheVersion := some "1.0", userToken := none, faults := [],
    setItemLog := [], server := fun _ => .rejects, fetchLog := [], bodyReads := 0,
    fullPath := "/admin", pushes := [], host := sampleHost }

/-- The payload `{name: 'wallet'}`. -/
def wallet : JVal := .obj [("name", .str "wallet")]

/-- A store holding a fresh entry `a` and a stale entry `b` (written at 0 for 1000 ms and
for 10 ms) swept at time 500. -/
def sweepWorld : World :=
  (sampleWorld.afterWrite (.json (.obj
    [("a", cacheEntry (some wallet) 0 1000), ("b", cacheEntry (some wallet) 0 10)]))).atTime 500

/-- A store written under the version tag `'0.9'`, holding an entry `a`. -/
def staleVersionWorld : World :=
  { sampleWorld.afterWrite (.json (.obj [("a", cacheEntry (some wallet) 0 1000)])) with
    cacheVersion := some "0.9" }

/-- The payload `{title: 'Keys'}`. -/
def keysPayload : JVal := .obj [("title", .str "Keys")]

/-- A server that answers every request with status 200 and the body
`{code: 0, data: {title: 'Keys'}}`. -/
def keysServer : Nat → FetchOutcome := fun _ =>
  .responds { status := 200, statusText := "OK",
              body := some (.obj [("code", .num 0), ("data", keysPayload)]) }

/-- A world with that server whose storage faults on its fourth call: in
`getObject(key, true)` that is the `setItem` of the cache write. -/
def quotaWorld : World :=
  { sampleWorld with server := keysServer, faults := [false, false, false, true] }

/-- A response with status 401 and the body `{detail: 'Unauthorized'}`. -/
def unauthorized : Response :=
  { status := 401, statusText := "Unauthorized",
    body := some (.obj [("detail", .str "Unauthorized")]) }

/-- A world at the location `/admin` holding a credential, whose server answers 401. -/
def adminWorld : World :=
  { sampleWorld with userToken := some (some (.str "t0k3n")),
                     server := fun _ => .responds unauthorized }

/-- The same world at the location `/login`. -/
def loginPageWorld : World := { adminWorld with fullPath := "/login" }

/-- A world at time 0 whose cache holds, for `abc123`, the payload `0` written at time 0
for 1000 ms, and whose server answers with `{code: 0, data: {title: 'Keys'}}`. -/
def falsyWorld : World :=
  { sampleWorld.afterWrite (.json (.obj [("abc123", cacheEntry (some (.num 0)) 0 1000)])) with
    server := keysServer }

/-- A world with an empty cache whose server answers with status 200 and the body `null`. -/
def nullBodyWorld : World :=
  { sampleWorld with
    server := fun _ => .responds { status := 200, statusText := "OK", body := some .null } }

/-- A world with an empty cache whose server answers with `{code: 0, data: {title: 'Keys'}}`. -/
def keysWorld : World := { sampleWorld with server := keysServer }

/-- A world whose stored cache text does not parse. -/
def corruptWorld : World := { sampleWorld with itemsCache := some .malformed }

/-- A world whose storage faults on its next call. -/
def unreadableWorld : World :=
  { sampleWorld.afterWrite (.json (.obj [("a", cacheEntry (some wallet) 0 1000)])) with
    faults := [true] }

/-! ## Running the computations -/

@[simp] theorem JS.pure_run {α : Type} (a : α) (w : World) :
    (pure a : JS α) w = (.ok a, w) := rfl

@[simp] theorem JS.raise_run {α : Type} (e : JsError) (w : World) :
    (JS.raise e : JS α) w = (.error e, w) := rfl

theorem JS.bind_run {α β : Type} (m : JS α) (f : α → JS β) (w : World) :
    (m >>= f) w = match m w with
      | (.ok a, w1) => f a w1
      | (.error e, w1) => (.error e, w1) := rfl

theorem JS.bind_ok {α β : Type} (m : JS α) (f : α → JS β) (w w1 : World) (a : α)
    (h : m w = (.ok a, w1)) : (m >>= f) w = f a w1 := by
  rw [JS.bind_run, h]

@[simp] theorem World.atTime_now (w : World) (t : Int) : (w.atTime t).now = t := rfl

@[simp] theorem World.atTime_faults (w : World) (t : Int) : (w.atTime t).faults = w.faults := rfl

@[simp] theorem World.atTime_mapping (w : World) (t : Int) : (w.atTime t).mapping = w.mapping := rfl

@[simp] theorem World.afterWrite_now (w : World) (text : Raw) : (w.afterWrite text).now = w.now := rfl

@[simp] theorem World.afterWrite_faults (w : World) (text : Raw) :
    (w.afterWrite text).faults = w.faults := rfl

@[simp] theorem World.afterWrite_itemsCache (w : World) (text : Raw) :
    (w.afterWrite text).itemsCache = some text := rfl

@[simp] theorem World.afterWrite_mapping (w : World) (fields : List (String × JVal)) :
    (w.afterWrite (.json (.obj fields))).mapping = .obj fields := rfl

theorem storageCall_run (w : World) (hf : w.faults = []) : storageCall w = (.ok (), w) := by
  simp [storageCall, hf]

theorem getAllCachedItems_run (w : World) (hf : w.faults = []) :
    getAllCachedItems w = (.ok (parsed w.itemsCache), w) := by
  cases h : w.itemsCache with
  | none => simp [getAllCachedItems, JS.tryCatch, JS.bind_run, getItemItemsCache, storageCall_run w hf, h, parsed]
  | some r =>
    cases r <;>
      simp [getAllCachedItems, JS.tryCatch, JS.bind_run, getItemItemsCache, storageCall_run w hf, h, parsed, jsonParse]

theorem setItemItemsCache_run (w : World) (hf : w.faults = []) (text : Raw) :
    setItemItemsCache text w =
      (.ok (), w.afterWrite text) := by
  simp [setItemItemsCache, JS.bind_run, storageCall, hf, World.afterWrite]

theorem plainGet_own (fields : List (String × JVal)) (key : String) (v : JVal)
    (hl : fields.lookup key = some v) : plainGet fields key = .value (some v) := by
  simp [plainGet, hl]

theorem plainGet_absent (fields : List (String × JVal)) (key : String)
    (hl : fields.lookup key = none) (hk : objectPrototypeMembers.contains key = false) :
    plainGet fields key = .value none := by
  simp only [plainGet, hl, hk]
  rfl

theorem plainGet_inherited (fields : List (String × JVal)) (key : String)
    (hl : fields.lookup key = none) (hk : objectPrototypeMembers.contains key = true) :
    plainGet fields key = .inherited key := by
  simp only [plainGet, hl, hk]
  rfl

theorem plainSet_ordinary (fields : List (String × JVal)) (key : String) (v : JVal)
    (hk : key ≠ "__proto__") : plainSet fields key v = upsert fields key v := by
  simp [plainSet, hk]

theorem saveItemToCache_plain (w : World) (hf : w.faults = []) (fields : List (String × JVal))
    (hm : w.mapping = .obj fields) (key : String) (itemData : Val) (expiryTime : Option Int) :
    saveItemToCache key itemData expiryTime w =
      (.ok (), w.afterWrite (.json (.obj (plainSet fields key
          (cacheEntry itemData w.now (expiryTime.getD DEFAULT_CACHE_EXPIRY)))))) := by
  unfold World.mapping at hm
  simp [saveItemToCache, JS.tryCatch, JS.bind_run, getAllCachedItems_run w hf, hm, dateNow,
    setIndex, setItemItemsCache_run w hf, jsonStringify]

theorem saveItemToCache_run (w : World) (hf : w.faults = []) (fields : List (String × JVal))
    (hm : w.mapping = .obj fields) (key : String) (hk : key ≠ "__proto__") (itemData : Val)
    (expiryTime : Option Int) :
    saveItemToCache key itemData expiryTime w =
      (.ok (), w.afterWrite (.json (.obj (upsert fields key
          (cacheEntry itemData w.now (expiryTime.getD DEFAULT_CACHE_EXPIRY)))))) := by
  rw [saveItemToCache_plain w hf fields hm, plainSet_ordinary _ _ _ hk]

theorem removeItemFromCache_run (w : World) (hf : w.faults = [])
    (fields : List (String × JVal)) (hm : w.mapping = .obj fields) (key : String) :
    removeItemFromCache key w =
      (.ok (), if (plainGet fields key).truthy then
        w.afterWrite (.json (.obj (erase fields key))) else w) := by
  unfold World.mapping at hm
  by_cases ht : (plainGet fields key).truthy = true <;>
    simp [removeItemFromCache, JS.tryCatch, JS.bind_run, getAllCachedItems_run w hf, hm,
      getIndex, deleteIndex, setItemItemsCache_run w hf, jsonStringify, ht]

theorem getItemFromCache_miss (w : World) (hf : w.faults = [])
    (fields : List (String × JVal)) (hm : w.mapping = .obj fields) (key : String)
    (hl : fields.lookup key = none) (hk : objectPrototypeMembers.contains key = false) :
    getItemFromCache key w = (.ok (some .null), w) := by
  unfold World.mapping at hm
  simp [getItemFromCache, JS.tryCatch, JS.bind_run, getAllCachedItems_run w hf, hm,
    getIndex, plainGet_absent fields key hl hk, Slot.truthy, truthy]

theorem getItemFromCache_inherited (w : World) (hf : w.faults = [])
    (fields : List (String × JVal)) (hm : w.mapping = .obj fields) (key : String)
    (hl : fields.lookup key = none) (hk : objectPrototypeMembers.contains key = true) :
    getItemFromCache key w = (.ok none, w) := by
  unfold World.mapping at hm
  simp [getItemFromCache, JS.tryCatch, JS.bind_run, getAllCachedItems_run w hf, hm,
    getIndex, plainGet_inherited fields key hl hk, Slot.truthy, Slot.field, dateNow, expired,
    toNumber]

theorem getItemFromCache_entry (w : World) (hf : w.faults = [])
    (fields : List (String × JVal)) (hm : w.mapping = .obj fields) (key : String)
    (entry : List (String × JVal)) (a b : Int)
    (hl : fields.lookup key = some (.obj entry))
    (ha : entry.lookup "timestamp" = some (.num a))
    (hb : entry.lookup "expiry" = some (.num b)) :
    getItemFromCache key w =
      if w.now - a > b then
        (.ok (some .null), w.afterWrite (.json (.obj (erase fields key))))
      else (.ok (entry.lookup "data"), w) := by
  have hg := plainGet_own fields key (.obj entry) hl
  have hr := removeItemFromCache_run w hf fields hm key
  rw [hg] at hr
  unfold World.mapping at hm
  by_cases hx : w.now - a > b <;>
    simp [getItemFromCache, JS.tryCatch, JS.bind_run, getAllCachedItems_run w hf, hm,
      getIndex, hg, Slot.truthy, Slot.field, truthy, dateNow, field, ha, hb, expired, toNumber,
      hx, hr]

theorem lookup_upsert_self (fields : List (String × JVal)) (key : String) (v : JVal) :
    (upsert fields key v).lookup key = some v := by
  induction fields with
  | nil => simp [upsert, List.lookup]
  | cons p rest ih =>
    obtain ⟨k, x⟩ := p
    by_cases h : k = key
    · subst h; simp [upsert, List.lookup]
    · have h2 : (key == k) = false := by simpa using fun e => h e.symm
      simp [upsert, h, List.lookup, h2, ih]

theorem lookup_upsert_ne (fields : List (String × JVal)) (key other : String) (v : JVal)
    (hne : other ≠ key) : (upsert fields key v).lookup other = fields.lookup other := by
  induction fields with
  | nil =>
    have h2 : (other == key) = false := by simpa using hne
    simp [upsert, List.lookup, h2]
  | cons p rest ih =>
    obtain ⟨k, x⟩ := p
    by_cases h : k = key
    · subst h
      have h2 : (other == k) = false := by simpa using hne
      simp [upsert, List.lookup, h2]
    · by_cases h3 : other = k
      · subst h3; simp [upsert, h, List.lookup]
      · have h4 : (other == k) = false := by simpa using h3
        simp [upsert, h, List.lookup, h4, ih]

theorem lookup_erase_self (fields : List (String × JVal)) (key : String) :
    (erase fields key).lookup key = none := by
  induction fields with
  | nil => simp [erase]
  | cons p rest ih =>
    obtain ⟨k, x⟩ := p
    by_cases h : k = key
    · subst h; simpa [erase] using ih
    · have h2 : (key == k) = false := by simpa using fun e => h e.symm
      simpa [erase, h, List.lookup, h2] using ih

theorem keys_upsert (fields : List (String × JVal)) (key : String) (v : JVal) :
    (upsert fields key v).map Prod.fst =
      if key ∈ fields.map Prod.fst then fields.map Prod.fst else fields.map Prod.fst ++ [key] := by
  induction fields with
  | nil => simp [upsert]
  | cons p rest ih =>
    obtain ⟨k, x⟩ := p
    by_cases h : k = key
    · subst h; simp [upsert]
    · have h2 : ¬ key = k := fun e => h e.symm
      by_cases hmem : key ∈ rest.map Prod.fst
      · simp only [upsert, h, if_false, List.map_cons, ih, if_pos hmem, List.mem_cons, h2,
          false_or]
      · simp only [upsert, h, if_false, List.map_cons, ih, if_neg hmem, List.mem_cons, h2,
          false_or, List.cons_append]

theorem nodup_keys_upsert (fields : List (String × JVal)) (key : String) (v : JVal)
    (hnd : (fields.map Prod.fst).Nodup) : ((upsert fields key v).map Prod.fst).Nodup := by
  rw [keys_upsert]
  by_cases hmem : key ∈ fields.map Prod.fst
  · rw [if_pos hmem]; exact hnd
  · rw [if_neg hmem]
    exact List.Nodup.append hnd (List.nodup_singleton key) (by simpa using hmem)

theorem count_keys_upsert (fields : List (String × JVal)) (key : String) (v : JVal)
    (hnd : (fields.map Prod.fst).Nodup) : ((upsert fields key v).map Prod.fst).count key = 1 := by
  have hmem : key ∈ (upsert fields key v).map Prod.fst := by
    rw [keys_upsert]
    by_cases h : key ∈ fields.map Prod.fst
    · rw [if_pos h]; exact h
    · rw [if_neg h]; simp
  exact List.count_eq_one_of_mem (nodup_keys_upsert fields key v hnd) hmem

theorem lookup_append_of_not_mem (done rest : List (String × JVal)) (key : String)
    (h : key ∉ done.map Prod.fst) : (done ++ rest).lookup key = rest.lookup key := by
  induction done with
  | nil => rfl
  | cons p tl ih =>
    obtain ⟨k, x⟩ := p
    simp only [List.map_cons, List.mem_cons, not_or] at h
    have h2 : (key == k) = false := by simpa using h.1
    simp [List.lookup, h2, ih h.2]

theorem erase_of_not_mem (fields : List (String × JVal)) (key : String)
    (h : key ∉ fields.map Prod.fst) : erase fields key = fields := by
  unfold erase
  rw [List.filter_eq_self]
  intro p hp
  have : p.1 ≠ key := fun e => h (e ▸ List.mem_map_of_mem Prod.fst hp)
  simpa using this

theorem erase_middle (done tl : List (String × JVal)) (key : String) (x : JVal)
    (h1 : key ∉ done.map Prod.fst) (h2 : key ∉ tl.map Prod.fst) :
    erase (done ++ (key, x) :: tl) key = done ++ tl := by
  have e1 := erase_of_not_mem done key h1
  have e2 := erase_of_not_mem tl key h2
  unfold erase at *
  simp [List.filter_append, List.filter_cons, e1, e2]

theorem sweepStep_run (w : World) (now : Int) (cur : List (String × JVal)) (b : Bool)
    (key : String) (entry : JVal) (hl : cur.lookup key = some entry)
    (hwf : wellFormedEntry entry = true) :
    sweepStep now (.obj cur, b) key w =
      (.ok (if unexpired now entry then (.obj cur, b) else (.obj (erase cur key), true)), w) := by
  cases entry with
  | obj efs =>
    simp only [wellFormedEntry, Bool.and_eq_true] at hwf
    obtain ⟨h1, h2⟩ := hwf
    cases ha : efs.lookup "timestamp" with
    | none => simp [ha] at h1
    | some tv =>
      cases hb : efs.lookup "expiry" with
      | none => simp [hb] at h2
      | some ev =>
        cases tv <;> simp [ha] at h1
        cases ev <;> simp [hb] at h2
        rename_i a c
        by_cases hx : now - a ≤ c
        · have hx2 : ¬ (c < now - a) := by omega
          simp [sweepStep, JS.bind_run, getIndex, plainGet_own cur key _ hl, Slot.field, field,
            ha, hb, expired, toNumber, unexpired, timestampOf, expiryOf, hx, hx2]
        · have hx2 : c < now - a := by omega
          simp [sweepStep, JS.bind_run, getIndex, plainGet_own cur key _ hl, Slot.field, field,
            ha, hb, expired, toNumber, unexpired, timestampOf, expiryOf, hx, hx2, deleteIndex]
  | null => simp [wellFormedEntry] at hwf
  | bool _ => simp [wellFormedEntry] at hwf
  | num _ => simp [wellFormedEntry] at hwf
  | str _ => simp [wellFormedEntry] at hwf
  | arr _ => simp [wellFormedEntry] at hwf

theorem forEach_sweep (w : World) (now : Int) (rest : List (String × JVal)) :
    ∀ (done : List (String × JVal)) (b : Bool),
      ((done ++ rest).map Prod.fst).Nodup →
      (∀ p ∈ rest, wellFormedEntry p.2 = true) →
      forEach (rest.map Prod.fst) (.obj (done ++ rest), b) (sweepStep now) w =
        (.ok (.obj (done ++ rest.filter (fun p => unexpired now p.2)),
              b || rest.any (fun p => !unexpired now p.2)), w) := by
  induction rest with
  | nil => intro done b _ _; simp [forEach]
  | cons p tl ih =>
    intro done b hnd hwf
    obtain ⟨k, x⟩ := p
    have hnd2 : (done.map Prod.fst ++ k :: tl.map Prod.fst).Nodup := by
      simpa using hnd
    have hk1 : k ∉ done.map Prod.fst := by
      intro hmem
      have := (List.nodup_append.mp hnd2).2.2
      exact this hmem (List.mem_cons_self _ _) 
    have hk2 : k ∉ tl.map Prod.fst := by
      have := (List.nodup_append.mp hnd2).2.1
      exact (List.nodup_cons.mp this).1
    have hl : (done ++ (k, x) :: tl).lookup k = some x := by
      rw [lookup_append_of_not_mem _ _ _ hk1]; simp [List.lookup]
    have hx : wellFormedEntry x = true := hwf (k, x) (List.mem_cons_self _ _)
    have htl : ∀ p ∈ tl, wellFormedEntry p.2 = true :=
      fun p hp => hwf p (List.mem_cons_of_mem _ hp)
    simp only [List.map_cons, forEach]
    rw [JS.bind_ok _ _ _ _ _ (sweepStep_run w now _ b k x hl hx)]
    by_cases hu : unexpired now x = true
    · have hnd3 : (((done ++ [(k, x)]) ++ tl).map Prod.fst).Nodup := by
        simpa using hnd
      have := ih (done ++ [(k, x)]) b hnd3 htl
      simp only [List.append_assoc, List.singleton_append] at this
      simp [hu, this, List.filter_cons]
    · have hnd3 : ((done ++ tl).map Prod.fst).Nodup := by
        have h3 := List.nodup_append.mp hnd2
        simp only [List.map_append]
        refine List.nodup_append.mpr ⟨h3.1, (List.nodup_cons.mp h3.2.1).2, ?_⟩
        intro a ha hb
        exact h3.2.2 ha (List.mem_cons_of_mem _ hb)
      have := ih done true hnd3 htl
      simp [hu, erase_middle done tl k x hk1 hk2, this, List.filter_cons]

theorem cleanExpiredCache_run (w : World) (hf : w.faults = []) (m : List (String × JVal))
    (hm : w.mapping = .obj m) (hnd : (m.map Prod.fst).Nodup)
    (hwf : ∀ p ∈ m, wellFormedEntry p.2 = true) :
    cleanExpiredCache w =
      (.ok (), if m.any (fun p => !unexpired w.now p.2) then
        w.afterWrite (.json (.obj (m.filter (fun p => unexpired w.now p.2)))) else w) := by
  have hloop := forEach_sweep w w.now m [] false (by simpa using hnd) hwf
  simp only [List.nil_append, Bool.false_or] at hloop
  unfold World.mapping at hm
  by_cases hany : m.any (fun p => !unexpired w.now p.2) = true
  · simp only [cleanExpiredCache, JS.tryCatch, JS.bind_run, dateNow, getAllCachedItems_run w hf,
      hm, objectKeys, hloop, hany, if_true, jsonStringify, setItemItemsCache_run w hf]
  · simp only [cleanExpiredCache, JS.tryCatch, JS.bind_run, dateNow, getAllCachedItems_run w hf,
      hm, objectKeys, hloop, hany, if_false, JS.pure_run]
    rfl

theorem initializeCache_mismatch (w : World) (hf : w.faults = [])
    (hv : w.cacheVersion ≠ some CURRENT_CACHE_VERSION) :
    initializeCache w =
      (.ok (), { w with itemsCache := none,
                        setItemLog := w.setItemLog ++ ["findreve-cache-version"],
                        cacheVersion := some CURRENT_CACHE_VERSION }) := by
  simp [initializeCache, JS.tryCatch, JS.bind_run, getItemCacheVersion, storageCall, hf, hv,
    clearAllCache, removeItemItemsCache, setItemCacheVersion]

theorem initializeCache_match (w : World) (hf : w.faults = [])
    (hv : w.cacheVersion = some CURRENT_CACHE_VERSION) :
    initializeCache w = (.ok (), w) := by
  simp [initializeCache, JS.tryCatch, JS.bind_run, getItemCacheVersion, storageCall, hf, hv]

theorem JS.tryCatch_total {α : Type} (body : JS α) (handler : JsError → JS α)
    (hh : ∀ e w, ∃ a w1, handler e w = (.ok a, w1)) (w : World) :
    ∃ a w1, JS.tryCatch body handler w = (.ok a, w1) := by
  unfold JS.tryCatch
  rcases hb : body w with ⟨r, w1⟩
  cases r with
  | ok a => exact ⟨a, w1, rfl⟩
  | error e => exact hh e w1

theorem clearAllCache_total (w : World) : ∃ a w1, clearAllCache w = (.ok a, w1) :=
  JS.tryCatch_total _ _ (fun _ w => ⟨(), w, rfl⟩) w

theorem saveItemToCache_total (key : String) (itemData : Val) (expiryTime : Option Int)
    (w : World) : ∃ a w1, saveItemToCache key itemData expiryTime w = (.ok a, w1) :=
  JS.tryCatch_total _ _ (fun _ w => ⟨(), w, rfl⟩) w

theorem getAllCachedItems_unreadable (w : World)
    (h : w.faults.head? = some true ∨ w.itemsCache = some .malformed) :
    ∃ w1, getAllCachedItems w = (.ok (.obj []), w1) := by
  cases hfl : w.faults with
  | nil =>
    rcases h with h | h
    · simp [hfl] at h
    · simp [getAllCachedItems, JS.tryCatch, JS.bind_run, getItemItemsCache, storageCall, hfl, h,
        jsonParse]
  | cons b rest =>
    cases b with
    | true =>
      simp [getAllCachedItems, JS.tryCatch, JS.bind_run, getItemItemsCache, storageCall, hfl]
    | false =>
      rcases h with h | h
      · simp [hfl] at h
      · simp [getAllCachedItems, JS.tryCatch, JS.bind_run, getItemItemsCache, storageCall, hfl,
          h, jsonParse]

theorem login_credential (w : World) (username password : String) :
    (∀ data, (login username password w).1 = .ok (.success data) →
      (login username password w).2.userToken = some (member data "access_token")) ∧
    (∀ e, (login username password w).1 = .ok (.failure e) →
      (login username password w).2.userToken = w.userToken) := by
  cases hs : w.server w.fetchLog.length with
  | rejects => simp [login, JS.tryCatch, JS.bind_run, fetch, hs]
  | responds r =>
    by_cases hok : r.ok = true
    · cases hb : r.body with
      | none => simp [login, JS.tryCatch, JS.bind_run, fetch, hs, hok, Response.json, hb]
      | some data =>
        cases hfl : w.faults with
        | nil =>
          cases data <;>
            simp [login, JS.tryCatch, JS.bind_run, fetch, hs, hok, Response.json, hb, field,
              setItemUserToken, storageCall, hfl, member]
        | cons b rest =>
          cases b <;> cases data <;>
            simp [login, JS.tryCatch, JS.bind_run, fetch, hs, hok, Response.json, hb, field,
              setItemUserToken, storageCall, hfl, member]
    · by_cases h401 : r.status = 401
      · simp [login, JS.tryCatch, JS.bind_run, fetch, hs, hok, h401]
      · cases hb : r.body with
        | none => simp [login, JS.tryCatch, JS.bind_run, fetch, hs, hok, h401, Response.json, hb]
        | some data =>
          cases data <;>
            simp [login, JS.tryCatch, JS.bind_run, fetch, hs, hok, h401, Response.json, hb,
              field]

theorem request_401_elsewhere (w : World) (method url : String) (r : Response)
    (hf : w.faults = []) (hs : w.server w.fetchLog.length = .responds r)
    (h401 : r.status = 401) (hp : w.fullPath ≠ "/login") :
    request method url w =
      (.error (.error AUTH_EXPIRED),
        { w with fetchLog := w.fetchLog ++ [(method, url)], userToken := none,
                 pushes := w.pushes ++ [loginRedirect w.fullPath] }) := by
  simp [request, JS.tryCatch, JS.bind_run, getItemUserToken, storageCall, hf, fetch, hs, h401,
    removeItemUserToken, currentFullPath, hp, routerPush, loginRedirect]

theorem request_401_login (w : World) (method url : String) (r : Response)
    (hf : w.faults = []) (hs : w.server w.fetchLog.length = .responds r)
    (h401 : r.status = 401) (hp : w.fullPath = "/login") :
    request method url w =
      (.error (.error (genericMessage r)),
        { w with fetchLog := w.fetchLog ++ [(method, url)], userToken := none,
                 bodyReads := w.bodyReads + 1 }) := by
  have hok : r.ok = false := by simp [Response.ok, h401]
  cases hb : r.body with
  | none =>
    simp [request, JS.tryCatch, JS.bind_run, getItemUserToken, storageCall, hf, fetch, hs, h401,
      removeItemUserToken, currentFullPath, hp, hok, Response.json, hb, genericMessage]
  | some data =>
    cases data <;>
      simp [request, JS.tryCatch, JS.bind_run, getItemUserToken, storageCall, hf, fetch, hs,
        h401, removeItemUserToken, currentFullPath, hp, hok, Response.json, hb, genericMessage,
        field, member]

theorem request_other_status (w : World) (method url : String) (r : Response)
    (hs : w.server w.fetchLog.length = .responds r) (h401 : r.status ≠ 401) :
    (request method url w).2.userToken = w.userToken ∧
    (request method url w).2.pushes = w.pushes ∧
    (request method url w).2.fullPath = w.fullPath := by
  have body : ∀ fl : List Bool, w.faults = fl → (fl = [] ∨ ∃ rest, fl = false :: rest) →
      (request method url w).2.userToken = w.userToken ∧
      (request method url w).2.pushes = w.pushes ∧
      (request method url w).2.fullPath = w.fullPath := by
    intro fl hfl hshape
    have hcall : ∃ w1, storageCall w = (.ok (), w1) ∧ w1.userToken = w.userToken ∧
        w1.pushes = w.pushes ∧ w1.fullPath = w.fullPath ∧ w1.server = w.server ∧
        w1.fetchLog = w.fetchLog := by
      rcases hshape with h | ⟨rest, h⟩
      · exact ⟨w, by simp [storageCall, hfl, h], rfl, rfl, rfl, rfl, rfl⟩
      · exact ⟨{ w with faults := rest }, by simp [storageCall, hfl, h], rfl, rfl, rfl, rfl, rfl⟩
    obtain ⟨w1, hc, ht, hpu, hfp, hsv, hlog⟩ := hcall
    have hs1 : w1.server w1.fetchLog.length = .responds r := by rw [hsv, hlog]; exact hs
    by_cases hok : r.ok = true
    · cases hb : r.body with
      | none =>
        simp [request, JS.tryCatch, JS.bind_run, getItemUserToken, hc, fetch, hs1, h401, hok,
          Response.json, hb, ht, hpu, hfp]
      | some data =>
        simp [request, JS.tryCatch, JS.bind_run, getItemUserToken, hc, fetch, hs1, h401, hok,
          Response.json, hb, ht, hpu, hfp]
    · cases hb : r.body with
      | none =>
        simp [request, JS.tryCatch, JS.bind_run, getItemUserToken, hc, fetch, hs1, h401, hok,
          Response.json, hb, ht, hpu, hfp]
      | some data =>
        cases data <;>
          simp [request, JS.tryCatch, JS.bind_run, getItemUserToken, hc, fetch, hs1, h401, hok,
            Response.json, hb, ht, hpu, hfp, field]
  cases hfl : w.faults with
  | nil => exact body [] hfl (Or.inl rfl)
  | cons b rest =>
    cases b with
    | false => exact body _ hfl (Or.inr ⟨rest, rfl⟩)
    | true => simp [request, JS.bind_run, getItemUserToken, storageCall, hfl]

theorem request_ok (w : World) (method url : String) (r : Response) (body : JVal)
    (hf : w.faults = []) (hs : w.server w.fetchLog.length = .responds r)
    (hok : r.ok = true) (hb : r.body = some body) :
    request method url w = (.ok body, w.afterResponse method url) := by
  have h401 : r.status ≠ 401 := by
    simp only [Response.ok, Bool.and_eq_true, decide_eq_true_eq] at hok
    omega
  simp [request, JS.tryCatch, JS.bind_run, getItemUserToken, storageCall, hf, fetch, hs, h401,
    hok, Response.json, hb, World.afterResponse]

/-! ## The claims -/

/-- The TTL law for every key other than `__proto__`. In a world whose storage does not
fault and whose cache mapping is a plain object, after `saveItemToCache(key, payload, T)`
at time `w.now`, a `getItemFromCache(key)` at any time `t` with `w.now ≤ t ≤ w.now + T`
returns the payload, and at any time `t > w.now + T` it returns `null` and leaves a
persisted mapping that is a plain object without an entry for `key`. -/
theorem ttl_law_ordinary_key (w : World) (key : String) (payload : JVal) (T t : Int)
    (hk : key ≠ "__proto__") (hf : w.faults = []) (hp : w.plainStore = true) :
    (w.now ≤ t → t ≤ w.now + T →
      (getItemFromCache key ((saveItemToCache key (some payload) (some T) w).2.atTime t)).1
        = .ok (some payload)) ∧
    (w.now + T < t →
      (getItemFromCache key ((saveItemToCache key (some payload) (some T) w).2.atTime t)).1
        = .ok (some .null) ∧
      ∃ fields,
        (getItemFromCache key
          ((saveItemToCache key (some payload) (some T) w).2.atTime t)).2.itemsCache
          = some (.json (.obj fields)) ∧
        fields.lookup key = none) := by
  obtain ⟨fields, hm⟩ : ∃ fields, w.mapping = .obj fields := by
    unfold World.plainStore at hp
    cases h : w.mapping <;> simp [h, isPlainObject] at hp
    exact ⟨_, rfl⟩
  rw [saveItemToCache_run w hf fields hm key hk]
  have hget := getItemFromCache_entry
    ((w.afterWrite (.json (.obj (upsert fields key (cacheEntry (some payload) w.now T))))).atTime t)
    hf (upsert fields key (cacheEntry (some payload) w.now T)) rfl key
    [("data", payload), ("timestamp", .num w.now), ("expiry", .num T)] w.now T
    (lookup_upsert_self _ _ _) rfl rfl
  simp only [Option.getD_some]
  rw [hget, World.atTime_now]
  refine ⟨fun h1 h2 => ?_, fun h3 => ?_⟩
  · have hx : ¬ (t - w.now > T) := by omega
    rw [if_neg hx]
    rfl
  · have hx : t - w.now > T := by omega
    rw [if_pos hx]
    exact ⟨rfl, _, rfl, lookup_erase_self _ _⟩

/-- Scenario A: `write('item-1', {name:'wallet'}, 1000)` at time 0, read at 500 and at 1500. -/
theorem ttl_law_scenario_a :
    (getItemFromCache "item-1"
      ((saveItemToCache "item-1" (some wallet) (some 1000) sampleWorld).2.atTime 500)).1
        = .ok (some wallet) ∧
    (getItemFromCache "item-1"
      ((saveItemToCache "item-1" (some wallet) (some 1000) sampleWorld).2.atTime 1500)).1
        = .ok (some .null) :=
  ⟨(ttl_law_ordinary_key sampleWorld "item-1" wallet 1000 500 (by decide) rfl rfl).1
      (by decide) (by decide),
   ((ttl_law_ordinary_key sampleWorld "item-1" wallet 1000 1500 (by decide) rfl rfl).2
      (by decide)).1⟩

/-- C1, the TTL law, evaluated at the key `__proto__`, where the code breaks it. On empty
storage `saveItemToCache('__proto__', {name: 'wallet'}, 1000)` at time 0 makes its `setItem`
call but persists the text of `{}`: the assignment ran the prototype setter and created no
entry. A `getItemFromCache('__proto__')` at time 500, inside the TTL, finds the inherited
member, takes the hit path and returns `undefined`, not the payload. -/
theorem ttl_law_proto_key :
    (saveItemToCache "__proto__" (some wallet) (some 1000) sampleWorld).2.itemsCache
      = some (.json (.obj [])) ∧
    (saveItemToCache "__proto__" (some wallet) (some 1000) sampleWorld).2.setItemLog
      = ["findreve-items-cache"] ∧
    (getItemFromCache "__proto__"
      ((saveItemToCache "__proto__" (some wallet) (some 1000) sampleWorld).2.atTime 500)).1
        = .ok none ∧
    (getItemFromCache "__proto__"
      ((saveItemToCache "__proto__" (some wallet) (some 1000) sampleWorld).2.atTime 500)).1
        ≠ .ok (some wallet) := by
  refine ⟨rfl, rfl, rfl, ?_⟩
  have h : (getItemFromCache "__proto__"
      ((saveItemToCache "__proto__" (some wallet) (some 1000) sampleWorld).2.atTime 500)).1
        = .ok none := rfl
  rw [h]
  intro hc
  injection hc with hc
  cases hc

/-- The write is an upsert for every key other than `__proto__`. In a world whose storage
does not fault and whose cache mapping is the plain object `m` (with the distinct keys
every object has), after `saveItemToCache(key, payload, ttl)` at time `w.now` the persisted
text is that of a plain object `m1` that maps `key` to `{data: payload, timestamp: w.now,
expiry: ttl}`, agrees with `m` on every other key and has exactly one entry for `key`; and
after a second write of `key` at any time `t2` the persisted object maps `key` to the second
write's payload, timestamp and ttl, still agrees with `m` elsewhere and still has exactly
one entry for `key`. -/
theorem write_is_upsert_ordinary_key (w : World) (m : List (String × JVal)) (key : String)
    (payload : JVal) (ttl : Int) (hk : key ≠ "__proto__")
    (hf : w.faults = []) (hm : w.mapping = .obj m) (hnd : (m.map Prod.fst).Nodup) :
    ∃ m1,
      (saveItemToCache key (some payload) (some ttl) w).2.itemsCache = some (.json (.obj m1)) ∧
      m1.lookup key
        = some (.obj [("data", payload), ("timestamp", .num w.now), ("expiry", .num ttl)]) ∧
      (∀ other, other ≠ key → m1.lookup other = m.lookup other) ∧
      (m1.map Prod.fst).count key = 1 ∧
      ∀ (payload2 : JVal) (ttl2 t2 : Int), ∃ m2,
        (saveItemToCache key (some payload2) (some ttl2)
          ((saveItemToCache key (some payload) (some ttl) w).2.atTime t2)).2.itemsCache
            = some (.json (.obj m2)) ∧
        m2.lookup key
          = some (.obj [("data", payload2), ("timestamp", .num t2), ("expiry", .num ttl2)]) ∧
        (∀ other, other ≠ key → m2.lookup other = m.lookup other) ∧
        (m2.map Prod.fst).count key = 1 := by
  rw [saveItemToCache_run w hf m hm key hk]
  refine ⟨_, rfl, lookup_upsert_self _ _ _, fun other hne => lookup_upsert_ne _ _ _ _ hne,
    count_keys_upsert _ _ _ hnd, fun payload2 ttl2 t2 => ?_⟩
  rw [saveItemToCache_run
    ((w.afterWrite (.json (.obj (upsert m key (cacheEntry (some payload) w.now
      ((some ttl).getD DEFAULT_CACHE_EXPIRY)))))).atTime t2) hf _ rfl key hk]
  refine ⟨_, rfl, lookup_upsert_self _ _ _, fun other hne => ?_,
    count_keys_upsert _ _ _ (nodup_keys_upsert _ _ _ hnd)⟩
  rw [lookup_upsert_ne _ _ _ _ hne, lookup_upsert_ne _ _ _ _ hne]

/-- C10, the write as an upsert, evaluated at the key `__proto__`, where the code breaks it.
On a store that holds `other`, `saveItemToCache('__proto__', {name: 'wallet'}, 1000)` makes
its `setItem` call and persists the mapping it found: it still holds `other` and has no
entry for `__proto__`, where the claim has one holding the payload. -/
theorem write_is_upsert_proto_key :
    (saveItemToCache "__proto__" (some wallet) (some 1000)
      (sampleWorld.afterWrite (.json (.obj [("other", wallet)])))).2.itemsCache
        = some (.json (.obj [("other", wallet)])) ∧
    (saveItemToCache "__proto__" (some wallet) (some 1000)
      (sampleWorld.afterWrite (.json (.obj [("other", wallet)])))).2.setItemLog
        = ["findreve-items-cache", "findreve-items-cache"] ∧
    ([("other", wallet)].map Prod.fst).count "__proto__" = 0 :=
  ⟨rfl, rfl, by decide⟩

/-- C4, the sweep law. In a world whose storage does not fault and whose cache mapping is
the plain object `m` (distinct keys, every entry an object with a numeric `timestamp` and
`expiry`), `cleanExpiredCache()` at time `w.now` completes and leaves exactly the entries
of `m` with `w.now - timestamp ≤ expiry`, each unchanged; when some entry has expired it
makes exactly one `setItem` call, which stores that mapping, and when none has expired it
makes no `setItem` call and leaves the world as it was. -/
theorem sweep_law (w : World) (m : List (String × JVal))
    (hf : w.faults = []) (hm : w.mapping = .obj m) (hnd : (m.map Prod.fst).Nodup)
    (hwf : ∀ p ∈ m, wellFormedEntry p.2 = true) :
    (cleanExpiredCache w).1 = .ok () ∧
    (cleanExpiredCache w).2.mapping = .obj (m.filter (fun p => unexpired w.now p.2)) ∧
    ((∃ p ∈ m, unexpired w.now p.2 = false) →
      (cleanExpiredCache w).2.itemsCache
        = some (.json (.obj (m.filter (fun p => unexpired w.now p.2)))) ∧
      (cleanExpiredCache w).2.setItemLog = w.setItemLog ++ ["findreve-items-cache"]) ∧
    ((∀ p ∈ m, unexpired w.now p.2 = true) → (cleanExpiredCache w).2 = w) := by
  rw [cleanExpiredCache_run w hf m hm hnd hwf]
  by_cases hany : m.any (fun p => !unexpired w.now p.2) = true
  · rw [if_pos hany]
    refine ⟨rfl, rfl, fun _ => ⟨rfl, rfl⟩, fun hall => ?_⟩
    obtain ⟨p, hp, hx⟩ := List.any_eq_true.mp hany
    rw [hall p hp] at hx
    simp at hx
  · rw [if_neg hany]
    have hall : ∀ p ∈ m, unexpired w.now p.2 = true := by
      intro p hp
      by_contra hc
      exact hany (List.any_eq_true.mpr ⟨p, hp, by simpa using hc⟩)
    refine ⟨rfl, ?_, fun hex => ?_, fun _ => rfl⟩
    · rw [List.filter_eq_self.mpr hall]
      exact hm
    · obtain ⟨p, hp, hx⟩ := hex
      rw [hall p hp] at hx
      simp at hx

/-- At time 500 the sweep keeps `a`, drops `b` and writes once. -/
theorem sweep_law_witness :
    (cleanExpiredCache sweepWorld).2.itemsCache
      = some (.json (.obj [("a", cacheEntry (some wallet) 0 1000)])) ∧
    (cleanExpiredCache sweepWorld).2.setItemLog
      = ["findreve-items-cache", "findreve-items-cache"] :=
  (sweep_law sweepWorld
    [("a", cacheEntry (some wallet) 0 1000), ("b", cacheEntry (some wallet) 0 10)]
    rfl rfl (by decide) (by decide)).2.2.1 ⟨("b", cacheEntry (some wallet) 0 10), List.mem_cons_of_mem _ (List.mem_cons_self _ _), by decide⟩

/-- The version-invalidation law. In a world whose storage does not fault: when the stored
version tag differs from `'1.0'` (an absent tag included), whatever text is stored under
the cache key, `initializeCache()` completes, the stored tag is `'1.0'` afterwards, the
cache item is gone, and at every later time `getItemFromCache(key)` returns `null` for
every key that does not name a member of `Object.prototype` and `undefined` for the keys
that do; when the stored tag is `'1.0'`, `initializeCache()` leaves the world unchanged. -/
theorem version_invalidation_by_key (w : World) (hf : w.faults = []) :
    (w.cacheVersion ≠ some CURRENT_CACHE_VERSION →
      (initializeCache w).1 = .ok () ∧
      (initializeCache w).2.cacheVersion = some "1.0" ∧
      (initializeCache w).2.itemsCache = none ∧
      ∀ (key : String) (t : Int),
        (getItemFromCache key ((initializeCache w).2.atTime t)).1 =
          .ok (if objectPrototypeMembers.contains key then none else some .null)) ∧
    (w.cacheVersion = some CURRENT_CACHE_VERSION → (initializeCache w).2 = w) := by
  refine ⟨fun hv => ?_, fun hv => ?_⟩
  · rw [initializeCache_mismatch w hf hv]
    refine ⟨rfl, rfl, rfl, fun key t => ?_⟩
    by_cases hk : objectPrototypeMembers.contains key = true
    · rw [if_pos hk]
      exact congrArg Prod.fst (getItemFromCache_inherited
        (({ w with itemsCache := none,
                   setItemLog := w.setItemLog ++ ["findreve-cache-version"],
                   cacheVersion := some CURRENT_CACHE_VERSION } : World).atTime t)
        hf [] rfl key rfl hk)
    · rw [if_neg hk]
      exact congrArg Prod.fst (getItemFromCache_miss
        (({ w with itemsCache := none,
                   setItemLog := w.setItemLog ++ ["findreve-cache-version"],
                   cacheVersion := some CURRENT_CACHE_VERSION } : World).atTime t)
        hf [] rfl key rfl (by simpa using hk))
  · rw [initializeCache_match w hf hv]

/-- C5, the version-invalidation law, evaluated at the key `constructor`, where the code
breaks it. A store written under the version tag `'0.9'` is initialised: the tag becomes
`'1.0'` and the cache item is removed. A `getItemFromCache('constructor')` afterwards finds
the member inherited from `Object.prototype`, takes the hit path and returns `undefined`,
not `null`. -/
theorem version_invalidation_inherited_key :
    staleVersionWorld.cacheVersion = some "0.9" ∧
    (initializeCache staleVersionWorld).2.cacheVersion = some "1.0" ∧
    (initializeCache staleVersionWorld).2.itemsCache = none ∧
    (getItemFromCache "constructor" ((initializeCache staleVersionWorld).2.atTime 500)).1
      = .ok none ∧
    (getItemFromCache "constructor" ((initializeCache staleVersionWorld).2.atTime 500)).1
      ≠ .ok (some .null) := by
  refine ⟨rfl, rfl, rfl, rfl, ?_⟩
  have h : (getItemFromCache "constructor"
      ((initializeCache staleVersionWorld).2.atTime 500)).1 = .ok none := rfl
  rw [h]
  intro hc
  injection hc with hc
  cases hc

/-- Cache faults are absorbed. For every world (any stored text, any fault schedule of the
backing storage, any engine) each of `initializeCache`, `saveItemToCache`,
`getItemFromCache`, `getCacheTimestamp`, `removeItemFromCache`, `cleanExpiredCache` and
`clearAllCache` returns normally; when the read of the stored text faults or the text does
not parse, `getCacheTimestamp` returns `null` and `getItemFromCache` returns `null` for
every key that does not name a member of `Object.prototype` and `undefined` for the keys
that do; and when `getObject` misses the cache (or skips it) and the request delivers a
body whose `code` is `0`, it returns the body's `data` whatever the storage does during the
cache write. -/
theorem cache_faults_absorbed (w : World) (key : String) (itemData : Val)
    (expiryTime : Option Int) :
    (∃ w1, initializeCache w = (.ok (), w1)) ∧
    (∃ w1, saveItemToCache key itemData expiryTime w = (.ok (), w1)) ∧
    (∃ v w1, getItemFromCache key w = (.ok v, w1)) ∧
    (∃ v w1, getCacheTimestamp key w = (.ok v, w1)) ∧
    (∃ w1, removeItemFromCache key w = (.ok (), w1)) ∧
    (∃ w1, cleanExpiredCache w = (.ok (), w1)) ∧
    (∃ w1, clearAllCache w = (.ok (), w1)) ∧
    ((w.faults.head? = some true ∨ w.itemsCache = some .malformed) →
      (getItemFromCache key w).1 =
        .ok (if objectPrototypeMembers.contains key then none else some .null) ∧
      (getCacheTimestamp key w).1 = .ok (some .null)) ∧
    (∀ (useCache : Bool) (cached : Val) (w1 w2 : World) (body : List (String × JVal)),
      (if useCache then getItemFromCache key else pure none) w = (.ok cached, w1) →
      truthy cached = false →
      get ("/api/object/" ++ w1.host.encodeURIComponent key) w1 = (.ok (.obj body), w2) →
      body.lookup "code" = some (.num 0) →
      (getObject key useCache w).1 = .ok (body.lookup "data")) := by
  have unit : ∀ (m : JS Unit), (∃ a w1, m w = (.ok a, w1)) → ∃ w1, m w = (.ok (), w1) :=
    fun m ⟨_, w1, h⟩ => ⟨w1, h⟩
  refine ⟨unit _ (JS.tryCatch_total _ _ (fun _ w => clearAllCache_total w) w),
    unit _ (saveItemToCache_total key itemData expiryTime w),
    JS.tryCatch_total _ _ (fun _ w => ⟨_, w, rfl⟩) w,
    JS.tryCatch_total _ _ (fun _ w => ⟨_, w, rfl⟩) w,
    unit _ (JS.tryCatch_total _ _ (fun _ w => ⟨(), w, rfl⟩) w),
    unit _ (JS.tryCatch_total _ _ (fun _ w => ⟨(), w, rfl⟩) w),
    unit _ (clearAllCache_total w), fun h => ?_, ?_⟩
  · obtain ⟨w1, hg⟩ := getAllCachedItems_unreadable w h
    have he : orEmpty (.obj []) = .obj [] := rfl
    by_cases hk : objectPrototypeMembers.contains key = true
    · have hp := plainGet_inherited [] key rfl hk
      have hmem : key ∈ objectPrototypeMembers := by simpa using hk
      constructor
      · simp [getItemFromCache, JS.tryCatch, JS.bind_run, hg, he, getIndex, hp, Slot.truthy,
          Slot.field, dateNow, expired, toNumber, hmem]
      · simp [getCacheTimestamp, JS.tryCatch, JS.bind_run, hg, he, getIndex, hp, Slot.truthy,
          Slot.field, truthy]
    · have hk2 : objectPrototypeMembers.contains key = false := by simpa using hk
      have hp := plainGet_absent [] key rfl hk2
      have hmem : key ∉ objectPrototypeMembers := by simpa using hk2
      constructor
      · simp [getItemFromCache, JS.tryCatch, JS.bind_run, hg, he, getIndex, hp, Slot.truthy,
          truthy, hmem]
      · simp [getCacheTimestamp, JS.tryCatch, JS.bind_run, hg, he, getIndex, hp, Slot.truthy,
          truthy]
  · intro useCache cached w1 w2 body hc hfalsy hget hcode
    obtain ⟨a, w3, hsave⟩ := saveItemToCache_total key (body.lookup "data") none w2
    simp [getObject, JS.tryCatch, JS.bind_run, hc, hfalsy, encodeURIComponent, hget, field,
      hcode, strictEqZero, hsave]

/-- With a storage that faults on the `setItem` of the cache write, `getObject('abc123',
true)` still returns `{title: 'Keys'}`, and nothing was stored. -/
theorem cache_faults_absorbed_quota :
    (getObject "abc123" true quotaWorld).1 = .ok (some keysPayload) ∧
    (getObject "abc123" true quotaWorld).2.itemsCache = none :=
  ⟨(cache_faults_absorbed quotaWorld "abc123" none none).2.2.2.2.2.2.2.2
      true _ _ _ _ rfl rfl rfl rfl,
   rfl⟩

/-- C6, cache faults never escalate, evaluated at the key `constructor`, where the code
breaks the part on unreadable stores. Whether the stored text does not parse or the read
of it faults, `getItemFromCache('constructor')` returns normally, but it finds the member
inherited from `Object.prototype` in the empty mapping it falls back to, takes the hit
path and returns `undefined`, not `null`; `getCacheTimestamp('constructor')` returns `null`. -/
theorem cache_faults_inherited_key :
    (getItemFromCache "constructor" corruptWorld).1 = .ok none ∧
    (getItemFromCache "constructor" unreadableWorld).1 = .ok none ∧
    (getItemFromCache "constructor" corruptWorld).1 ≠ .ok (some .null) ∧
    (getCacheTimestamp "constructor" corruptWorld).1 = .ok (some .null) := by
  refine ⟨rfl, rfl, ?_, rfl⟩
  have h : (getItemFromCache "constructor" corruptWorld).1 = .ok none := rfl
  rw [h]
  intro hc
  injection hc with hc
  cases hc

/-- C7, `login` never raises. For every world (any server outcome, any fault schedule of
the storage) `login` returns normally with `{success: true, data}` or `{success: false,
error}`; when the server answers 401 the result is `{success: false, error: '账号或密码错误'}`;
when the result is a success the stored credential is `data.access_token`, and when it
is a failure the stored credential is what it was. -/
theorem login_never_raises (w : World) (username password : String) :
    (∃ r w1, login username password w = (.ok r, w1)) ∧
    (∀ r : Response, w.server w.fetchLog.length = .responds r → r.status = 401 →
      (login username password w).1 = .ok (.failure (.error (.str "账号或密码错误")))) ∧
    (∀ data, (login username password w).1 = .ok (.success data) →
      (login username password w).2.userToken = some (member data "access_token")) ∧
    (∀ e, (login username password w).1 = .ok (.failure e) →
      (login username password w).2.userToken = w.userToken) := by
  refine ⟨JS.tryCatch_total _ _ (fun e w => ⟨_, w, rfl⟩) w, ?_, ?_, ?_⟩
  · intro r hr h401
    have hok : r.ok = false := by simp [Response.ok, h401]
    simp [login, JS.tryCatch, JS.bind_run, fetch, hr, hok, h401]
  · exact (login_credential w username password).1
  · exact (login_credential w username password).2

/-- Scenario D: `login('bob', 'wrong')` against a server answering 401. -/
theorem login_never_raises_witness :
    (login "bob" "wrong" adminWorld).1 = .ok (.failure (.error (.str "账号或密码错误"))) ∧
    (login "bob" "wrong" adminWorld).2.userToken = adminWorld.userToken :=
  have h := login_never_raises adminWorld "bob" "wrong"
  ⟨h.2.1 unauthorized rfl rfl, h.2.2.2 _ (h.2.1 unauthorized rfl rfl)⟩

/-- C9, the side effects of credential expiry. For a `request` whose `fetch` is answered
with status 401, in a world whose storage does not fault, the stored credential is removed;
if the current full path differs from `/login` exactly one redirect is requested, to
`/login` with `redirect` set to that path and `expired` set to `'true'`, and if it is
`/login` no redirect is requested. For a `request` whose `fetch` is answered with any other
status, whatever the storage does, the credential, the requested redirects and the
location are what they were. -/
theorem credential_expiry_side_effects (w : World) (method url : String) (r : Response)
    (hs : w.server w.fetchLog.length = .responds r) :
    (r.status = 401 → w.faults = [] →
      (request method url w).2.userToken = none ∧
      (w.fullPath ≠ "/login" →
        (request method url w).2.pushes = w.pushes ++
          [{ path := "/login", query := [("redirect", w.fullPath), ("expired", "true")] }]) ∧
      (w.fullPath = "/login" → (request method url w).2.pushes = w.pushes)) ∧
    (r.status ≠ 401 →
      (request method url w).2.userToken = w.userToken ∧
      (request method url w).2.pushes = w.pushes ∧
      (request method url w).2.fullPath = w.fullPath) := by
  refine ⟨fun h401 hf => ?_, fun h401 => request_other_status w method url r hs h401⟩
  by_cases hp : w.fullPath = "/login"
  · rw [request_401_login w method url r hf hs h401 hp]
    exact ⟨rfl, fun h => absurd hp h, fun _ => rfl⟩
  · rw [request_401_elsewhere w method url r hf hs h401 hp]
    exact ⟨rfl, fun _ => rfl, fun h => absurd h hp⟩

/-- Scenario B: a 401 on `GET /api/admin/` at the location `/admin`. -/
theorem credential_expiry_side_effects_witness :
    (request "GET" "/api/admin/" adminWorld).2.userToken = none ∧
    (request "GET" "/api/admin/" adminWorld).2.pushes =
      [{ path := "/login", query := [("redirect", "/admin"), ("expired", "true")] }] :=
  have h := (credential_expiry_side_effects adminWorld "GET" "/api/admin/" unauthorized rfl).1
    rfl rfl
  ⟨h.1, h.2.1 (by decide)⟩

/-- C2, refuted as stated: at the location `/login` a `request` answered with status 401
and the body `{detail: 'Unauthorized'}` does not fail with the authentication-expired
error; it reads the error body and fails with the generic error `Unauthorized`. -/
theorem auth_expired_on_login_surface_counterexample :
    loginPageWorld.server loginPageWorld.fetchLog.length = .responds unauthorized ∧
    unauthorized.status = 401 ∧
    (request "GET" "/api/admin/" loginPageWorld).1 ≠ .error (.error (.str "认证已过期，请重新登录")) ∧
    (request "GET" "/api/admin/" loginPageWorld).1 = .error (.error (.str "Unauthorized")) ∧
    (request "GET" "/api/admin/" loginPageWorld).2.bodyReads = loginPageWorld.bodyReads + 1 := by
  refine ⟨rfl, rfl, ?_, rfl, rfl⟩
  have h : (request "GET" "/api/admin/" loginPageWorld).1
      = .error (.error (.str "Unauthorized")) := rfl
  rw [h]
  intro hc
  injection hc with hc
  injection hc with hc
  injection hc with hc
  exact absurd hc (by decide)

/-- C2, amended. For a `request` whose `fetch` is answered with status 401, in a world whose
storage does not fault: if the current full path differs from `/login` the call fails with
the authentication-expired error and the response body is never read; if it is `/login`
the call reads the error body once and fails with the message of the generic non-2xx
handling. -/
theorem auth_expired_error (w : World) (method url : String) (r : Response)
    (hf : w.faults = []) (hs : w.server w.fetchLog.length = .responds r)
    (h401 : r.status = 401) :
    (w.fullPath ≠ "/login" →
      (request method url w).1 = .error (.error (.str "认证已过期，请重新登录")) ∧
      (request method url w).2.bodyReads = w.bodyReads) ∧
    (w.fullPath = "/login" →
      (request method url w).1 = .error (.error (genericMessage r)) ∧
      (request method url w).2.bodyReads = w.bodyReads + 1) := by
  refine ⟨fun hp => ?_, fun hp => ?_⟩
  · rw [request_401_elsewhere w method url r hf hs h401 hp]
    exact ⟨rfl, rfl⟩
  · rw [request_401_login w method url r hf hs h401 hp]
    exact ⟨rfl, rfl⟩

/-- Scenario B: a 401 at the location `/admin` fails with the authentication-expired error. -/
theorem auth_expired_error_witness :
    (request "GET" "/api/admin/" adminWorld).1 = .error (.error (.str "认证已过期，请重新登录")) ∧
    (request "GET" "/api/admin/" adminWorld).2.bodyReads = adminWorld.bodyReads :=
  (auth_expired_error adminWorld "GET" "/api/admin/" unauthorized rfl rfl rfl).1 (by decide)

/-- C3, refuted as stated: with the payload `0` cached for `abc123` and unexpired (a read
of the cache returns it), `getObject('abc123', true)` makes a network call and returns the
server's payload, not the cached one. -/
theorem cache_first_falsy_counterexample :
    (getItemFromCache "abc123" falsyWorld).1 = .ok (some (.num 0)) ∧
    falsyWorld.fetchLog = [] ∧
    (getObject "abc123" true falsyWorld).2.fetchLog = [("GET", "/api/object/abc123")] ∧
    (getObject "abc123" true falsyWorld).1 = .ok (some keysPayload) ∧
    (getObject "abc123" true falsyWorld).1 ≠ .ok (some (.num 0)) := by
  refine ⟨rfl, rfl, rfl, rfl, ?_⟩
  have h : (getObject "abc123" true falsyWorld).1 = .ok (some keysPayload) := rfl
  rw [h]
  intro hc
  injection hc with hc
  injection hc with hc
  cases hc

/-- C3, amended. In a world whose storage does not fault and whose cache mapping is a plain
object holding for `key` an entry that is unexpired at `w.now`: if the entry's payload is
truthy (every object and array is), `getObject(key, true)` returns it and leaves the world
as it was, so that no network call is made; if the payload is falsy, `getObject(key, true)`
does what `getObject(key, false)` does. -/
theorem cache_first (w : World) (key : String) (fields entry : List (String × JVal))
    (a b : Int) (hf : w.faults = []) (hm : w.mapping = .obj fields)
    (hl : fields.lookup key = some (.obj entry))
    (ha : entry.lookup "timestamp" = some (.num a))
    (hb : entry.lookup "expiry" = some (.num b))
    (hfresh : w.now - a ≤ b) :
    (truthy (entry.lookup "data") = true →
      getObject key true w = (.ok (entry.lookup "data"), w)) ∧
    (truthy (entry.lookup "data") = false →
      getObject key true w = getObject key false w) := by
  have hx : ¬ (w.now - a > b) := by omega
  have hget := getItemFromCache_entry w hf fields hm key entry a b hl ha hb
  rw [if_neg hx] at hget
  refine ⟨fun ht => ?_, fun ht => ?_⟩
  · simp [getObject, JS.tryCatch, JS.bind_run, hget, ht]
  · have hn : truthy (none : Val) = false := rfl
    simp [getObject, JS.tryCatch, JS.bind_run, hget, ht, hn]

/-- A cached `{name: 'wallet'}` is returned without touching the world. -/
theorem cache_first_witness :
    getObject "item-1" true
        (sampleWorld.afterWrite (.json (.obj [("item-1", cacheEntry (some wallet) 0 1000)])))
      = (.ok (some wallet),
        sampleWorld.afterWrite (.json (.obj [("item-1", cacheEntry (some wallet) 0 1000)]))) :=
  (cache_first
    (sampleWorld.afterWrite (.json (.obj [("item-1", cacheEntry (some wallet) 0 1000)])))
    "item-1" [("item-1", cacheEntry (some wallet) 0 1000)]
    [("data", wallet), ("timestamp", .num 0), ("expiry", .num 1000)] 0 1000
    rfl rfl rfl rfl rfl (by decide)).1 rfl

/-- C8, refuted as stated: on a cache miss, a 2xx response whose body is `null` makes
`getObject` fail with a `TypeError` (the read of `data.code`), not with the fallback
message. -/
theorem getObject_null_body_counterexample :
    nullBodyWorld.server nullBodyWorld.fetchLog.length
      = .responds { status := 200, statusText := "OK", body := some .null } ∧
    (getItemFromCache "abc123" nullBodyWorld).1 = .ok (some .null) ∧
    (getObject "abc123" true nullBodyWorld).1 = .error .typeError ∧
    (getObject "abc123" true nullBodyWorld).1 ≠ .error (.error (.str "获取物品信息失败")) := by
  refine ⟨rfl, rfl, rfl, ?_⟩
  have h : (getObject "abc123" true nullBodyWorld).1 = .error .typeError := rfl
  rw [h]
  intro hc
  injection hc with hc
  cases hc

/-- C8, amended. Let `w1` be the world after the cache lookup of `getObject(key, useCache)`
missed (or was skipped), with a storage that does not fault and a cache mapping that is a
plain object, and let the server answer the request with a 2xx status and a body that is
not `null`. If the body's `code` is `0`, `getObject` returns the body's `data` and has made
one network call; and, for every key other than `__proto__`, it has stored that payload
under `key` with the timestamp of the call and an expiry of 24 hours, and a later
`getItemFromCache(key)` at any time within those 24 hours returns the same payload and
leaves the world as it is (no network call). Otherwise `getObject` fails with the body's
`msg` when it is truthy and with `获取物品信息失败` when it is missing, empty or otherwise
falsy, and the stored cache text is what the lookup left. -/
theorem getObject_envelope (w w1 : World) (key : String) (useCache : Bool) (cached : Val)
    (r : Response) (body : JVal)
    (hlookup : (if useCache then getItemFromCache key else pure none) w = (.ok cached, w1))
    (hmiss : truthy cached = false)
    (hf : w1.faults = []) (hp : w1.plainStore = true)
    (hs : w1.server w1.fetchLog.length = .responds r) (hok : r.ok = true)
    (hb : r.body = some body) (hnn : body ≠ .null) :
    (member body "code" = some (.num 0) →
      (getObject key useCache w).1 = .ok (member body "data") ∧
      (getObject key useCache w).2.fetchLog =
        w1.fetchLog ++ [("GET", "/api/object/" ++ w1.host.encodeURIComponent key)] ∧
      (key ≠ "__proto__" →
        (∃ fields, (getObject key useCache w).2.itemsCache = some (.json (.obj fields)) ∧
          fields.lookup key
            = some (cacheEntry (member body "data") w1.now (24 * 60 * 60 * 1000))) ∧
        ∀ t : Int, w1.now ≤ t → t ≤ w1.now + 24 * 60 * 60 * 1000 →
          getItemFromCache key ((getObject key useCache w).2.atTime t) =
            (.ok (member body "data"), (getObject key useCache w).2.atTime t))) ∧
    (member body "code" ≠ some (.num 0) →
      (getObject key useCache w).1 =
        .error (.error (orElse (member body "msg") (.str "获取物品信息失败"))) ∧
      (getObject key useCache w).2.itemsCache = w1.itemsCache ∧
      (getObject key useCache w).2.setItemLog = w1.setItemLog) := by
  obtain ⟨fields, hm⟩ : ∃ fields, w1.mapping = .obj fields := by
    unfold World.plainStore at hp
    cases h : w1.mapping <;> simp [h, isPlainObject] at hp
    exact ⟨_, rfl⟩
  have hreq := request_ok w1 "GET" ("/api/object/" ++ w1.host.encodeURIComponent key) r body
    hf hs hok hb
  have hfield : ∀ (name : String) (w2 : World),
      field (some body) name w2 = (.ok (member body name), w2) := by
    intro name w2
    cases body <;> first | exact absurd rfl hnn | rfl
  refine ⟨fun hcode => ?_, fun hcode => ?_⟩
  · have hz : strictEqZero (member body "code") = true := by rw [hcode]; rfl
    have hsave := saveItemToCache_plain
      (w1.afterResponse "GET" ("/api/object/" ++ w1.host.encodeURIComponent key)) hf fields hm
      key (member body "data") none
    have hres : getObject key useCache w =
        (.ok (member body "data"),
          (w1.afterResponse "GET" ("/api/object/" ++ w1.host.encodeURIComponent key)).afterWrite
            (.json (.obj (plainSet fields key
              (cacheEntry (member body "data") w1.now DEFAULT_CACHE_EXPIRY))))) := by
      simp only [Option.getD_none] at hsave
      simp [getObject, JS.tryCatch, JS.bind_run, hlookup, hmiss, encodeURIComponent, get, hreq,
        hfield, hz, hsave]
      rfl
    rw [hres]
    refine ⟨rfl, rfl, fun hk => ?_⟩
    rw [plainSet_ordinary _ _ _ hk]
    refine ⟨⟨_, rfl, lookup_upsert_self _ _ _⟩, fun t h1 h2 => ?_⟩
    have hx : ¬ (t - w1.now > DEFAULT_CACHE_EXPIRY) := by
      unfold DEFAULT_CACHE_EXPIRY
      omega
    have hentry : ∃ entry, cacheEntry (member body "data") w1.now DEFAULT_CACHE_EXPIRY
          = .obj entry ∧
        entry.lookup "timestamp" = some (.num w1.now) ∧
        entry.lookup "expiry" = some (.num DEFAULT_CACHE_EXPIRY) ∧
        entry.lookup "data" = member body "data" := by
      cases hd : member body "data" with
      | none => exact ⟨_, rfl, rfl, rfl, rfl⟩
      | some d => exact ⟨_, rfl, rfl, rfl, rfl⟩
    obtain ⟨entry, he, h3, h4, h5⟩ := hentry
    have hget := getItemFromCache_entry
      (((w1.afterResponse "GET" ("/api/object/" ++ w1.host.encodeURIComponent key)).afterWrite
            (.json (.obj (upsert fields key
              (cacheEntry (member body "data") w1.now DEFAULT_CACHE_EXPIRY))))).atTime t)
      hf _ rfl key entry w1.now DEFAULT_CACHE_EXPIRY
      (by rw [lookup_upsert_self, he]) h3 h4
    rw [World.atTime_now, if_neg hx, h5] at hget
    exact hget
  · have hz : strictEqZero (member body "code") = false := by
      cases hc : member body "code" with
      | none => rfl
      | some c =>
        cases c with
        | num n =>
          have hn : n ≠ 0 := fun h0 => hcode (by rw [hc, h0])
          simp [strictEqZero, hn]
        | null => rfl
        | bool _ => rfl
        | str _ => rfl
        | arr _ => rfl
        | obj _ => rfl
    have hres : getObject key useCache w =
        (.error (.error (orElse (member body "msg") (.str "获取物品信息失败"))),
          w1.afterResponse "GET" ("/api/object/" ++ w1.host.encodeURIComponent key)) := by
      simp [getObject, JS.tryCatch, JS.bind_run, hlookup, hmiss, encodeURIComponent, get, hreq,
        hfield, hz]
    rw [hres]
    exact ⟨rfl, rfl, rfl⟩

/-- Scenario C: `getObject('abc123', true)` with no prior cache and a server returning
`{code: 0, data: {title: 'Keys'}}`, then a read of the cache an hour later. -/
theorem getObject_envelope_witness :
    (getObject "abc123" true keysWorld).1 = .ok (some keysPayload) ∧
    getItemFromCache "abc123" ((getObject "abc123" true keysWorld).2.atTime 3600000) =
      (.ok (some keysPayload), (getObject "abc123" true keysWorld).2.atTime 3600000) :=
  have h := (getObject_envelope keysWorld keysWorld "abc123" true (some .null)
    { status := 200, statusText := "OK",
      body := some (.obj [("code", .num 0), ("data", keysPayload)]) }
    (.obj [("code", .num 0), ("data", keysPayload)])
    rfl rfl rfl rfl rfl rfl rfl (by intro h; cases h)).1 rfl
  ⟨h.1, (h.2.2 (by decide)).2 3600000 (by decide) (by decide)⟩



end Findreve
